import Mathlib

/-!
Shallow embedding of `src/extension.ts` (VS Code Alloy extension glue code)
and proofs settling the frozen claims about it.

Conventions of the embedding:
* Editor/VS Code values (positions, ranges, documents, code lenses) are
  plain structures mirroring the fields the source reads.
* All side effects a handler performs (`client.sendNotification`,
  `spawn`, `vscode.window.showWarningMessage`,
  `vscode.commands.executeCommand`, `outputChannel.appendLine`) are
  reified as an `Effect` list returned by the handler, in program order.
* A scalar notification payload (the source sometimes passes a bare
  string instead of an array) is modelled as a one-element argument list.
* JavaScript numbers that the source only ever uses as integers (command
  index, line, character) are modelled as `Int`/`Nat`; the floating-point
  port computation is modelled over `ℚ` (exact arithmetic plus the
  source's explicit clamp).
* A JavaScript runtime `TypeError` (the source's non-null assertions
  `command!`/`arguments!` on an absent command) is modelled as
  `Except.error ()`.
-/

/-- A zero-based cursor position, mirroring `vscode.Position`. -/
structure Position where
  line : Nat
  character : Nat
deriving DecidableEq, Repr

/-- Lexicographic position order, mirroring `Position.isBeforeOrEqual`. -/
def posLeB (p q : Position) : Bool :=
  decide (p.line < q.line) || (decide (p.line = q.line) && decide (p.character ≤ q.character))

/-- A source range, mirroring `vscode.Range` (`start`/`end`). -/
structure Range where
  start : Position
  stop : Position
deriving DecidableEq, Repr

/-- Mirrors `vscode.Range.contains(position)`: start ≤ p ≤ end in the
lexicographic position order. -/
def Range.contains (r : Range) (p : Position) : Bool :=
  posLeB r.start p && posLeB p r.stop

/-- A JavaScript value passed as a command argument: the source only ever
stores strings and numbers in code-lens argument arrays, and `undefined`
can arrive when a command is invoked without arguments. -/
inductive Arg where
  | str (s : String)
  | num (n : Int)
  | undef
deriving DecidableEq, Repr

/-- Mirrors `vscode-languageclient`'s `Command` as the source uses it:
an identifier plus an argument array. -/
structure Command where
  command : String
  arguments : List Arg
deriving DecidableEq, Repr

/-- Mirrors `vscode.CodeLens`: a range with an optional resolved command. -/
structure CodeLens where
  range : Range
  command : Option Command
deriving DecidableEq, Repr

/-- The fields of `vscode.TextDocument` the source reads. -/
structure Doc where
  uriStr : String
  fileName : String
  languageId : String
  isUntitled : Bool
deriving DecidableEq, Repr

/-- The fields of `vscode.TextEditor` the source reads.  The source
guards on `editor.selection.active` being truthy, modelled as an
`Option Position`. -/
structure Editor where
  document : Doc
  selectionActive : Option Position
deriving DecidableEq, Repr

/-- A reified side effect of a handler, in program order. -/
inductive Effect where
  | notification (method : String) (args : List Arg)
  | spawnProc (cmd : String) (args : List String)
  | warning (message : String)
  | execCommand (commandId : String) (args : List Arg)
  | logLine (message : String)
deriving DecidableEq, Repr

/-- Mirrors `const ACTIVATION_DEBUG = false;` in the source. -/
def ACTIVATION_DEBUG : Bool := false

/-- Mirrors `debugLog`: appends to the output channel only when
`ACTIVATION_DEBUG` is set. -/
def debugLog (message : String) : List Effect :=
  if ACTIVATION_DEBUG then [Effect.logLine message] else []

/-- Mirrors `isAlloyLangId`. -/
def isAlloyLangId (id : String) : Bool :=
  id == "alloy" || id == "markdown"

/-- Mirrors rendering a JavaScript value into a template string. -/
def argText : Arg → String
  | Arg.str s => s
  | Arg.num n => toString n
  | Arg.undef => "undefined"

/-- Does `needle` lead `hay`?  Building block for substring search. -/
def leadsWith : List Char → List Char → Bool
  | [], _ => true
  | _ :: _, [] => false
  | a :: as, b :: bs => a == b && leadsWith as bs

/-- Does `needle` occur somewhere in `hay`? -/
def occursWithin (needle : List Char) : List Char → Bool
  | [] => leadsWith needle []
  | b :: bs => leadsWith needle (b :: bs) || occursWithin needle bs

/-- Mirrors JavaScript `String.prototype.includes`. -/
def includes (s pat : String) : Bool :=
  occursWithin pat.toList s.toList

/-- Mirrors the `alloy.executeCommand` handler (source lines 62-67): log
a debug line, then send the `ExecuteAlloyCommand` notification only when
the first argument is a string. -/
def executeCommandHandler (uri : Arg) (ind line char : Int) : List Effect :=
  debugLog ("executeCommand called with uri: " ++ argText uri ++ ", ind: " ++ toString ind
      ++ ", line: " ++ toString line ++ ", char: " ++ toString char)
    ++ (match uri with
        | Arg.str s =>
            [Effect.notification "ExecuteAlloyCommand" [Arg.str s, Arg.num ind, Arg.num line, Arg.num char]]
        | _ => [])

/-- Mirrors the `alloy.executeAllCommands` handler (source lines 70-76):
notify with sentinel index `-1` when a non-untitled recognized-language
document is active; otherwise do nothing.  (The source's bare `debugger;`
statement is a no-op.) -/
def executeAllCommandsHandler (editor : Option Editor) : List Effect :=
  match editor with
  | some e =>
      if !e.document.isUntitled && isAlloyLangId e.document.languageId then
        [Effect.notification "ExecuteAlloyCommand"
          [Arg.str e.document.uriStr, Arg.num (-1), Arg.num 0, Arg.num 0]]
      else []
  | none => []

/-- Mirrors the `alloy.openAlloyEditor` handler (source lines 80-87):
spawn `java -jar <alloyJar> gui <fileName>` when a non-untitled
recognized-language document is active, and otherwise spawn
`java -jar <alloyJar>` with no further arguments. -/
def openAlloyEditorHandler (alloyJar : String) (editor : Option Editor) : List Effect :=
  match editor with
  | some e =>
      if !e.document.isUntitled && isAlloyLangId e.document.languageId then
        [Effect.spawnProc "java" ["-jar", alloyJar, "gui", e.document.fileName]]
      else
        [Effect.spawnProc "java" ["-jar", alloyJar]]
  | none => [Effect.spawnProc "java" ["-jar", alloyJar]]

/-- Mirrors the `alloy.listCommands` handler (source lines 91-95). -/
def listCommandsHandler (editor : Option Editor) : List Effect :=
  match editor with
  | some e =>
      if !e.document.isUntitled && isAlloyLangId e.document.languageId then
        [Effect.notification "ListAlloyCommands" [Arg.str e.document.uriStr]]
      else []
  | none => []

/-- Mirrors the `alloy.openLatestInstance` handler (source lines 99-104). -/
def openLatestInstanceHandler (latestInstanceLink : Option String) : List Effect :=
  match latestInstanceLink with
  | some l => [Effect.notification "OpenModel" [Arg.str l]]
  | none => [Effect.warning "No Alloy instances generated yet!"]

/-- Mirrors `codeLens.command!.arguments![0] === documentUri.toString()`:
strict equality of the first stored argument with the document URI string
(`undefined === s` and `number === s` are `false`). -/
def firstArgIsUri (args : List Arg) (uriStr : String) : Bool :=
  match args with
  | Arg.str s :: _ => s == uriStr
  | _ => false

/-- Mirrors the predicate passed to `docCommands.find` in the
`alloy.executeCommandUnderCursor` handler.  The `&&` short-circuits, so
the non-null assertion `command!` is only evaluated when the range
contains the cursor; an absent command there is a runtime `TypeError`,
modelled as `Except.error ()`. -/
def lensPredicate (cursor : Position) (uriStr : String) (cl : CodeLens) : Except Unit Bool :=
  if cl.range.contains cursor then
    match cl.command with
    | none => Except.error ()
    | some c => Except.ok (firstArgIsUri c.arguments uriStr)
  else Except.ok false

/-- Mirrors `docCommands.find(...)`: the first code lens satisfying the
predicate, propagating a thrown `TypeError`. -/
def findCommandUnderCursor : List CodeLens → Position → String → Except Unit (Option CodeLens)
  | [], _, _ => Except.ok none
  | cl :: rest, cursor, uriStr =>
      match lensPredicate cursor uriStr cl with
      | Except.error u => Except.error u
      | Except.ok true => Except.ok (some cl)
      | Except.ok false => findCommandUnderCursor rest cursor uriStr

/-- Mirrors the `alloy.executeCommandUnderCursor` handler (source lines
107-127).  `docCommands` is the value of `commands.get(documentUri)` for
the active document (`none` covers both a missing entry and a stored
null, which are equally falsy in the source's `if(docCommands)` guard). -/
def executeCommandUnderCursorHandler (editor : Option Editor)
    (docCommands : Option (List CodeLens)) : Except Unit (List Effect) :=
  match editor with
  | none => Except.ok [Effect.warning "Cursor is not inside an Alloy command!"]
  | some e =>
      match e.selectionActive with
      | none => Except.ok [Effect.warning "Cursor is not inside an Alloy command!"]
      | some cursor =>
          match docCommands with
          | none => Except.ok [Effect.warning "Cursor is not inside an Alloy command!"]
          | some lst =>
              match findCommandUnderCursor lst cursor e.document.uriStr with
              | Except.error u => Except.error u
              | Except.ok none => Except.ok [Effect.warning "Cursor is not inside an Alloy command!"]
              | Except.ok (some cl) =>
                  match cl.command with
                  | some c => Except.ok [Effect.execCommand c.command c.arguments]
                  | none => Except.error ()

/-- Mirrors the in-place rewrite inside the code-lens middleware:
`if (lens.command) { lens.command.command = 'alloy.executeCommand'; }`. -/
def rewriteLensCommand (cl : CodeLens) : CodeLens :=
  { cl with command := cl.command.map (fun c => { c with command := "alloy.executeCommand" }) }

/-- Mirrors `middleware.provideCodeLenses` (source lines 142-157) in the
synchronous case (the `actOnProvideResult` helper applies its callback
directly to a non-thenable result).  Because the rewrite mutates the
lens objects in place, the value stored in the per-document cache and
the value returned in `"codelens"` mode are the same rewritten list.
Returns `(cache entry, returned lenses)`; `none` models a null/undefined
provider result. -/
def provideCodeLensesMiddleware (mode : String) (res : Option (List CodeLens)) :
    Option (List CodeLens) × Option (List CodeLens) :=
  let codeLensRes := res.map (fun l => l.map rewriteLensCommand)
  (codeLensRes, if mode == "codelens" then codeLensRes else some [])

/-- Mirrors the `lsProc.stdout.on("data", ...)` handler (source lines
235-240): a chunk is forwarded to `debugLog` unless it contains one of
the two noisy substrings. -/
def stdoutHandler (message : String) : List Effect :=
  if !includes message "thread:" && !includes message "link message!!!" then
    debugLog ("Server: " ++ message)
  else []

/-- Mirrors the `lsProc.stderr.on("data", ...)` handler (source lines
241-246): a chunk is logged only when it contains "ERROR" or "WARN". -/
def stderrHandler (message : String) : List Effect :=
  if includes message "ERROR" || includes message "WARN" then
    [Effect.logLine ("Server error: " ++ message)]
  else []

/-- Mirrors `randomNumber(from, to)` (source lines 343-351) with the
random draw made explicit: swap the bounds if needed, scale the draw,
then clamp (`if(res > to) res = to; if (res < from) res = from;`).
Modelled over `ℚ` (exact arithmetic; the clamp is the source's guard
against floating-point overshoot). -/
def randomNumber (lo hi r : ℚ) : ℚ :=
  let newTo := max lo hi
  let lo2 := min lo hi
  let hi2 := newTo
  let res := lo2 + r * (hi2 - lo2 + 1)
  let res2 := if hi2 < res then hi2 else res
  let res3 := if res2 < lo2 then lo2 else res2
  res3

/-- Mirrors `Math.floor(randomNumber(49152, 65535))` (source line 130). -/
def selectedPort (r : ℚ) : ℤ :=
  ⌊randomNumber 49152 65535 r⌋

/-- An event observed by the TCP rendezvous in
`createClientOwnedTCPServerOptions` (source lines 324-341): the
listener's ready callback, a listener error, or an accepted inbound
connection (identified by a socket id). -/
inductive TransportEvent where
  | listenReady
  | listenError (err : String)
  | connection (sockId : Nat)
deriving DecidableEq, Repr

/-- Mirrors `StreamInfo { reader: socket, writer: socket }`. -/
structure StreamInfo where
  reader : Nat
  writer : Nat
deriving DecidableEq, Repr

/-- The observable state of `createClientOwnedTCPServerOptions`:
the awaited setup promise, the `streamPromise`, and whether the server
is still accepting connections. -/
structure TransportState where
  setup : Option (Except String Unit)
  stream : Option StreamInfo
  listening : Bool
deriving Repr

/-- A promise settles at most once: a second resolve/reject is ignored. -/
def settle {α : Type} (p : Option α) (v : α) : Option α :=
  match p with
  | some w => some w
  | none => some v

/-- One event step of `createClientOwnedTCPServerOptions`.  The ready
callback runs `continuation()` (resolve the setup promise), the error
handler runs `rejectedContinuation(err)`, and the connection handler
resolves `streamPromise` with the socket as both reader and writer.  The
source never calls `close()` on the server, so no event clears
`listening`. -/
def transportStep (s : TransportState) (e : TransportEvent) : TransportState :=
  match e with
  | TransportEvent.listenReady => { s with setup := settle s.setup (Except.ok ()) }
  | TransportEvent.listenError err => { s with setup := settle s.setup (Except.error err) }
  | TransportEvent.connection k => { s with stream := settle s.stream (StreamInfo.mk k k) }

/-- The state right after `listen(port, "localhost", ...)` is issued. -/
def initTransportState : TransportState :=
  { setup := none, stream := none, listening := true }

/-- Run the rendezvous over a sequence of observed events. -/
def transportRun (events : List TransportEvent) : TransportState :=
  List.foldl transportStep initTransportState events

/-- Spec-side definition, following the spec's words: the setup future
settles according to the first ready/error event (ready resolves, error
rejects); connection events do not settle it. -/
def firstSettleOutcome : List TransportEvent → Option (Except String Unit)
  | [] => none
  | TransportEvent.listenReady :: _ => some (Except.ok ())
  | TransportEvent.listenError e :: _ => some (Except.error e)
  | TransportEvent.connection _ :: rest => firstSettleOutcome rest

/-- Spec-side definition: the socket id of the first accepted inbound
connection, if any. -/
def firstConnection : List TransportEvent → Option Nat
  | [] => none
  | TransportEvent.connection k :: _ => some k
  | _ :: rest => firstConnection rest

/-- An event observed by the `alloy/OpenModel` notification handler
(source lines 200-212): either the notification arrives, or the `pkill`
child process spawned for an earlier notification emits its `close`
event (close events arrive in spawn order). -/
inductive VizEvent where
  | openModelNotif (path : String)
  | killClosed
deriving DecidableEq, Repr

/-- State of the `alloy/OpenModel` handler: effects so far (program
order) and the queue of paths whose `pkill` close continuation is still
pending. -/
structure VizState where
  effects : List Effect
  pending : List String
deriving DecidableEq, Repr

/-- One event step of the `alloy/OpenModel` handler.  On the
notification it synchronously logs, spawns `pkill -f viz`, and registers
a close continuation; the `java ... viz <path>` spawn happens only
inside that continuation, i.e. on the `pkill` process's close event. -/
def vizStep (alloyJar : String) (s : VizState) : VizEvent → VizState
  | VizEvent.openModelNotif p =>
      { effects := s.effects
          ++ [Effect.logLine ("Handler triggered for OpenModel with path: " ++ p),
              Effect.spawnProc "pkill" ["-f", "viz"]],
        pending := s.pending ++ [p] }
  | VizEvent.killClosed =>
      match s.pending with
      | [] => s
      | p :: rest =>
          { effects := s.effects ++ [Effect.spawnProc "java" ["-jar", alloyJar, "viz", p]],
            pending := rest }

/-- Run the `alloy/OpenModel` handler over a sequence of events. -/
def vizRun (alloyJar : String) (events : List VizEvent) : VizState :=
  List.foldl (vizStep alloyJar) { effects := [], pending := [] } events

/-- Is this effect a spawn of the given executable? -/
def isSpawnOf (cmd : String) : Effect → Bool
  | Effect.spawnProc c _ => c == cmd
  | _ => false

/-- Is this effect a user-facing warning? -/
def isWarningEffect : Effect → Bool
  | Effect.warning _ => true
  | _ => false

/-- Spec-side predicate, following the spec's words: there is an active,
non-untitled document whose language identifier is recognized. -/
def hasActiveRecognizedDoc (editor : Option Editor) : Bool :=
  match editor with
  | some e => !e.document.isUntitled && isAlloyLangId e.document.languageId
  | none => false

/-- URI string of the active document (empty when there is none). -/
def activeDocUri (editor : Option Editor) : String :=
  match editor with
  | some e => e.document.uriStr
  | none => ""

/-- File name of the active document (empty when there is none). -/
def activeDocFileName (editor : Option Editor) : String :=
  match editor with
  | some e => e.document.fileName
  | none => ""

/-- Spec-side matcher for the under-cursor lookup: range contains the
cursor and the first stored command argument equals the URI string. -/
def lensMatchesB (cursor : Position) (uriStr : String) (cl : CodeLens) : Bool :=
  cl.range.contains cursor &&
    (match cl.command with
     | some c => firstArgIsUri c.arguments uriStr
     | none => false)

/-- Spec-side predicate: the lens's command (if any) routes through
`alloy.executeCommand`. -/
def lensRoutesThroughExec (cl : CodeLens) : Bool :=
  match cl.command with
  | some c => c.command == "alloy.executeCommand"
  | none => true

/-- Concrete document used in witnesses: a saved Alloy file. -/
def exDoc : Doc :=
  { uriStr := "file:///doc.als", fileName := "/doc.als",
    languageId := "alloy", isUntitled := false }

/-- Concrete command stored in the example code lens: arguments
`[docUri, 3, 2, 0]` as in the claim's example. -/
def exCommand : Command :=
  { command := "alloy.executeCommand",
    arguments := [Arg.str "file:///doc.als", Arg.num 3, Arg.num 2, Arg.num 0] }

/-- Concrete cached region: line 2, characters 0 through 10. -/
def exLens : CodeLens :=
  { range := { start := { line := 2, character := 0 },
               stop := { line := 2, character := 10 } },
    command := some exCommand }

/-- Concrete editor over `exDoc` with the cursor at the given position. -/
def exEditorAt (p : Position) : Editor :=
  { document := exDoc, selectionActive := some p }

lemma randomNumber_mem (lo hi r : ℚ) (hle : lo ≤ hi) :
    lo ≤ randomNumber lo hi r ∧ randomNumber lo hi r ≤ hi := by
  simp only [randomNumber]
  rw [max_eq_right hle, min_eq_left hle]
  split_ifs <;> constructor <;> linarith

lemma foldl_transportStep_listening (evts : List TransportEvent) :
    ∀ s : TransportState, (List.foldl transportStep s evts).listening = s.listening := by
  induction evts with
  | nil => intro s; rfl
  | cons e rest ih =>
      intro s
      rw [List.foldl_cons, ih]
      cases e <;> rfl

lemma foldl_transportStep_setup (evts : List TransportEvent) :
    ∀ s : TransportState,
      (List.foldl transportStep s evts).setup =
        (match s.setup with
         | some v => some v
         | none => firstSettleOutcome evts) := by
  induction evts with
  | nil => intro s; cases h : s.setup <;> simp [firstSettleOutcome, h]
  | cons e rest ih =>
      intro s
      rw [List.foldl_cons, ih]
      cases e with
      | listenReady => cases h : s.setup <;> simp [transportStep, settle, h, firstSettleOutcome]
      | listenError err => cases h : s.setup <;> simp [transportStep, settle, h, firstSettleOutcome]
      | connection k => cases h : s.setup <;> simp [transportStep, h, firstSettleOutcome]

lemma foldl_transportStep_stream (evts : List TransportEvent) :
    ∀ s : TransportState,
      (List.foldl transportStep s evts).stream =
        (match s.stream with
         | some v => some v
         | none => (firstConnection evts).map (fun k => StreamInfo.mk k k)) := by
  induction evts with
  | nil => intro s; cases h : s.stream <;> simp [firstConnection, h]
  | cons e rest ih =>
      intro s
      rw [List.foldl_cons, ih]
      cases e with
      | listenReady => cases h : s.stream <;> simp [transportStep, h, firstConnection]
      | listenError err => cases h : s.stream <;> simp [transportStep, h, firstConnection]
      | connection k => cases h : s.stream <;> simp [transportStep, settle, h, firstConnection]

/-- C1: for every random draw in `[0,1)`, the selected port
`Math.floor(randomNumber(49152, 65535))` lies in the closed interval
`[49152, 65535]`, inclusive of both endpoints (the source's clamp keeps
the scaled value inside the bounds even at the boundaries). -/
theorem c1_port_in_range (r : ℚ) (h0 : 0 ≤ r) (h1 : r < 1) :
    49152 ≤ selectedPort r ∧ selectedPort r ≤ 65535 := by
  have h := randomNumber_mem 49152 65535 r (by norm_num)
  unfold selectedPort
  constructor
  · exact Int.le_floor.mpr (by exact_mod_cast h.1)
  · have hf : ⌊randomNumber 49152 65535 r⌋ ≤ ⌊(65535 : ℚ)⌋ := Int.floor_le_floor h.2
    simpa using hf

/-- Witness for C1 at the concrete draw `r = 1/2`. -/
theorem c1_port_in_range_witness :
    (0 : ℚ) ≤ 1 / 2 ∧ (1 / 2 : ℚ) < 1 ∧
      (49152 ≤ selectedPort (1 / 2) ∧ selectedPort (1 / 2) ≤ 65535) :=
  ⟨by norm_num, by norm_num, c1_port_in_range (1 / 2) (by norm_num) (by norm_num)⟩

lemma findCommandUnderCursor_eq_find (cursor : Position) (uriStr : String) :
    ∀ lst : List CodeLens,
      (∀ cl ∈ lst, cl.range.contains cursor = true → cl.command.isSome = true) →
      findCommandUnderCursor lst cursor uriStr =
        Except.ok (List.find? (lensMatchesB cursor uriStr) lst) := by
  intro lst
  induction lst with
  | nil => intro _; rfl
  | cons cl rest ih =>
      intro h
      have hrest : ∀ c ∈ rest, c.range.contains cursor = true → c.command.isSome = true :=
        fun c hc => h c (List.mem_cons_of_mem cl hc)
      by_cases hcont : cl.range.contains cursor = true
      · cases hcmd : cl.command with
        | none =>
            exfalso
            have := h cl (List.mem_cons_self cl rest) hcont
            rw [hcmd] at this
            simp at this
        | some c =>
            by_cases harg : firstArgIsUri c.arguments uriStr = true
            · have hm : lensMatchesB cursor uriStr cl = true := by
                simp [lensMatchesB, hcont, hcmd, harg]
              simp [findCommandUnderCursor, lensPredicate, hcont, hcmd, harg,
                List.find?_cons_of_pos _ hm]
            · have hm : lensMatchesB cursor uriStr cl = false := by
                simp [lensMatchesB, hcmd]
                intro _
                exact Bool.eq_false_iff.mpr harg
              simp [findCommandUnderCursor, lensPredicate, hcont, hcmd,
                Bool.eq_false_iff.mpr harg, List.find?_cons_of_neg, hm, ih hrest]
      · have hm : lensMatchesB cursor uriStr cl = false := by
          simp [lensMatchesB, Bool.eq_false_iff.mpr hcont]
        simp [findCommandUnderCursor, lensPredicate, Bool.eq_false_iff.mpr hcont,
          List.find?_cons_of_neg, hm, ih hrest]

/-- C2 (counterexample): with no active editor at all, the
`alloy.openAlloyEditor` action still spawns an external process, so the
action does not validate "active, non-untitled, recognized-language
document" before acting, and its failure behavior is not limited to a
warning. -/
theorem c2_counterexample :
    openAlloyEditorHandler "alloy.jar" none = [Effect.spawnProc "java" ["-jar", "alloy.jar"]]
    ∧ (openAlloyEditorHandler "alloy.jar" none).all isWarningEffect = false :=
  ⟨rfl, rfl⟩

/-- C2 (amended): only execute-all and list-commands gate on an active,
non-untitled, recognized-language document (silently doing nothing
otherwise); open-external-editor performs the same check but on failure
still spawns the worker with no file argument; execute-one checks only
that its first argument is a string; open-latest-artifact checks only
that an artifact reference was recorded (warning otherwise); and
execute-under-cursor ignores the document's untitled flag and language
identifier entirely. -/
theorem c2_amended_preconditions :
    (∀ ed, executeAllCommandsHandler ed =
        (if hasActiveRecognizedDoc ed then
          [Effect.notification "ExecuteAlloyCommand"
            [Arg.str (activeDocUri ed), Arg.num (-1), Arg.num 0, Arg.num 0]]
         else []))
    ∧ (∀ ed, listCommandsHandler ed =
        (if hasActiveRecognizedDoc ed then
          [Effect.notification "ListAlloyCommands" [Arg.str (activeDocUri ed)]]
         else []))
    ∧ (∀ jar ed, openAlloyEditorHandler jar ed =
        (if hasActiveRecognizedDoc ed then
          [Effect.spawnProc "java" ["-jar", jar, "gui", activeDocFileName ed]]
         else [Effect.spawnProc "java" ["-jar", jar]]))
    ∧ (∀ uri ind line char, executeCommandHandler uri ind line char =
        (match uri with
         | Arg.str s =>
             [Effect.notification "ExecuteAlloyCommand"
               [Arg.str s, Arg.num ind, Arg.num line, Arg.num char]]
         | _ => []))
    ∧ (∀ link, openLatestInstanceHandler link =
        (match link with
         | some l => [Effect.notification "OpenModel" [Arg.str l]]
         | none => [Effect.warning "No Alloy instances generated yet!"]))
    ∧ (∀ (d : Doc) (sel : Option Position) (dc : Option (List CodeLens)) (b : Bool) (lid : String),
        executeCommandUnderCursorHandler
          (some { document := { uriStr := d.uriStr, fileName := d.fileName,
                                languageId := lid, isUntitled := b },
                  selectionActive := sel }) dc =
        executeCommandUnderCursorHandler (some { document := d, selectionActive := sel }) dc) := by
  refine ⟨?_, ?_, ?_, ?_, ?_, ?_⟩
  · intro ed; cases ed <;> rfl
  · intro ed; cases ed <;> rfl
  · intro jar ed; cases ed <;> rfl
  · intro uri ind line char; cases uri <;> rfl
  · intro link; cases link <;> rfl
  · intro d sel dc b lid; rfl

/-- C3: on a cached region list whose cursor-containing regions all carry
commands, execute-under-cursor invokes exactly the first region matching
the cursor and the active document's URI (one invocation, with exactly
that region's argument list, and no warning); and when the cursor lies
outside every cached region's range it produces zero notifications and
exactly one warning. -/
theorem c3_under_cursor (e : Editor) (cursor : Position) (lst : List CodeLens)
    (hsel : e.selectionActive = some cursor)
    (hcmds : ∀ cl ∈ lst, cl.range.contains cursor = true → cl.command.isSome = true) :
    (∀ cl c, List.find? (lensMatchesB cursor e.document.uriStr) lst = some cl →
        cl.command = some c →
        executeCommandUnderCursorHandler (some e) (some lst) =
          Except.ok [Effect.execCommand c.command c.arguments]
        ∧ cl.range.contains cursor = true
        ∧ firstArgIsUri c.arguments e.document.uriStr = true)
    ∧ ((∀ cl ∈ lst, cl.range.contains cursor = false) →
        executeCommandUnderCursorHandler (some e) (some lst) =
          Except.ok [Effect.warning "Cursor is not inside an Alloy command!"]) := by
  have hfc := findCommandUnderCursor_eq_find cursor e.document.uriStr lst hcmds
  constructor
  · intro cl c hfind hcmd
    have hmatch : lensMatchesB cursor e.document.uriStr cl = true := List.find?_some hfind
    have hparts : cl.range.contains cursor = true ∧ firstArgIsUri c.arguments e.document.uriStr = true := by
      rw [lensMatchesB, hcmd, Bool.and_eq_true] at hmatch
      exact hmatch
    refine ⟨?_, hparts.1, hparts.2⟩
    simp [executeCommandUnderCursorHandler, hsel, hfc, hfind, hcmd]
  · intro hout
    have hnone : List.find? (lensMatchesB cursor e.document.uriStr) lst = none := by
      rw [List.find?_eq_none]
      intro cl hcl
      simp [lensMatchesB, hout cl hcl]
    simp [executeCommandUnderCursorHandler, hsel, hfc, hnone]

/-- Witness for C3 at the claim's concrete example (region on line 2,
characters 0-10, arguments `[docUri, 3, 2, 0]`, cursor at line 2,
character 5) and at a cursor outside the region (line 9). -/
theorem c3_under_cursor_witness :
    executeCommandUnderCursorHandler
        (some (exEditorAt { line := 2, character := 5 })) (some [exLens]) =
      Except.ok [Effect.execCommand "alloy.executeCommand"
        [Arg.str "file:///doc.als", Arg.num 3, Arg.num 2, Arg.num 0]]
    ∧ executeCommandUnderCursorHandler
        (some (exEditorAt { line := 9, character := 0 })) (some [exLens]) =
      Except.ok [Effect.warning "Cursor is not inside an Alloy command!"] := by
  constructor
  · exact ((c3_under_cursor (exEditorAt { line := 2, character := 5 })
      { line := 2, character := 5 } [exLens] rfl (by decide)).1 exLens exCommand
      (by decide) rfl).1
  · exact (c3_under_cursor (exEditorAt { line := 9, character := 0 })
      { line := 9, character := 0 } [exLens] rfl (by decide)).2 (by decide)

/-- C4: with an active, non-untitled, recognized-language document,
execute-all sends exactly one `ExecuteAlloyCommand` notification with
the ordered arguments `[uri, -1, 0, 0]`; with an unrecognized language
identifier it sends nothing at all. -/
theorem c4_execute_all (e : Editor) :
    (e.document.isUntitled = false → isAlloyLangId e.document.languageId = true →
        executeAllCommandsHandler (some e) =
          [Effect.notification "ExecuteAlloyCommand"
            [Arg.str e.document.uriStr, Arg.num (-1), Arg.num 0, Arg.num 0]])
    ∧ (isAlloyLangId e.document.languageId = false →
        executeAllCommandsHandler (some e) = []) := by
  constructor
  · intro hu hl
    simp [executeAllCommandsHandler, hu, hl]
  · intro hl
    simp [executeAllCommandsHandler, hl]

/-- Witness for C4 on a saved Alloy document and on a plaintext one. -/
theorem c4_execute_all_witness :
    executeAllCommandsHandler
        (some { document := { uriStr := "file:///m.als", fileName := "/m.als",
                              languageId := "alloy", isUntitled := false },
                selectionActive := none }) =
      [Effect.notification "ExecuteAlloyCommand"
        [Arg.str "file:///m.als", Arg.num (-1), Arg.num 0, Arg.num 0]]
    ∧ executeAllCommandsHandler
        (some { document := { uriStr := "file:///m.txt", fileName := "/m.txt",
                              languageId := "plaintext", isUntitled := false },
                selectionActive := none }) = [] :=
  ⟨(c4_execute_all _).1 rfl (by decide), (c4_execute_all _).2 (by decide)⟩

lemma routes_rewrite (cl : CodeLens) :
    lensRoutesThroughExec (rewriteLensCommand cl) = true := by
  cases h : cl.command <;> simp [rewriteLensCommand, lensRoutesThroughExec, h]

/-- C5: the code-lens middleware always stores the computed list — with
every carried command identifier rewritten to `alloy.executeCommand` —
in the per-document cache, and returns that list only when the
display-mode configuration is `"codelens"`; for `"link"` or any other
mode it returns an empty list regardless of what the underlying lens
computation produced. -/
theorem c5_codelens_middleware (mode : String) (res : Option (List CodeLens)) :
    (provideCodeLensesMiddleware mode res).1 = res.map (fun l => l.map rewriteLensCommand)
    ∧ ((provideCodeLensesMiddleware mode res).1.getD []).all lensRoutesThroughExec = true
    ∧ (provideCodeLensesMiddleware mode res).2 =
        (if mode == "codelens" then (provideCodeLensesMiddleware mode res).1 else some []) := by
  refine ⟨rfl, ?_, rfl⟩
  cases res with
  | none => rfl
  | some l =>
      show (l.map rewriteLensCommand).all lensRoutesThroughExec = true
      rw [List.all_map]
      exact List.all_eq_true.mpr (fun cl _ => routes_rewrite cl)

/-- C6 (counterexample): with no active editor, open-external-editor
spawns `java -jar org.alloytools.alloy.dist.jar` with no `gui`
subcommand at all, so the invocation shape is not
`<runtime> -jar <workerArchive> gui` in that case. -/
theorem c6_counterexample :
    openAlloyEditorHandler "org.alloytools.alloy.dist.jar" none =
      [Effect.spawnProc "java" ["-jar", "org.alloytools.alloy.dist.jar"]]
    ∧ "gui" ∉ ["-jar", "org.alloytools.alloy.dist.jar"] :=
  ⟨rfl, by decide⟩

/-- C6 (amended): open-external-editor spawns
`java -jar <workerArchive> gui <file>` when there is an active,
non-untitled, recognized-language document, and otherwise spawns
`java -jar <workerArchive>` with no `gui` subcommand and no file
argument (the archive's default mode). -/
theorem c6_amended_gui_spawn (jar : String) (ed : Option Editor) :
    openAlloyEditorHandler jar ed =
      (if hasActiveRecognizedDoc ed then
        [Effect.spawnProc "java" ["-jar", jar, "gui", activeDocFileName ed]]
       else [Effect.spawnProc "java" ["-jar", jar]]) := by
  cases ed <;> rfl

/-- C7 (counterexample): after the listener is bound and the first
inbound connection is accepted (and even after a second one), the
rendezvous is still listening — the source never closes the server —
while the transport stream stays fixed to the first connection's
socket. -/
theorem c7_counterexample :
    (transportRun [TransportEvent.listenReady, TransportEvent.connection 1,
        TransportEvent.connection 2]).listening = true
    ∧ (transportRun [TransportEvent.listenReady, TransportEvent.connection 1,
        TransportEvent.connection 2]).stream = some (StreamInfo.mk 1 1) :=
  ⟨rfl, rfl⟩

/-- C7 (amended): the setup future settles exactly on the first
ready/error listener event (resolving only once the listener is bound,
rejecting on a listener error); the first accepted inbound connection's
socket becomes both the read and the write channel of the transport and
later connections never replace it; but the listener is never closed,
so the rendezvous keeps listening for further connections (which are
simply ignored by the already-settled stream promise). -/
theorem c7_amended_transport (evts : List TransportEvent) :
    (transportRun evts).setup = firstSettleOutcome evts
    ∧ (transportRun evts).stream = (firstConnection evts).map (fun k => StreamInfo.mk k k)
    ∧ (transportRun evts).listening = true := by
  refine ⟨?_, ?_, ?_⟩
  · exact foldl_transportStep_setup evts initTransportState
  · exact foldl_transportStep_stream evts initTransportState
  · exact foldl_transportStep_listening evts initTransportState

/-- C8 (counterexample): handling one `alloy/OpenModel` notification by
itself issues only the log line and the `pkill` spawn — no visualizer
spawn; the `java ... viz` spawn appears only once the `pkill` process's
close event fires, so the relaunch does wait for the kill command to
complete. -/
theorem c8_counterexample :
    (vizRun "alloy.jar" [VizEvent.openModelNotif "/tmp/a.xml"]).effects =
      [Effect.logLine "Handler triggered for OpenModel with path: /tmp/a.xml",
       Effect.spawnProc "pkill" ["-f", "viz"]]
    ∧ (vizRun "alloy.jar" [VizEvent.openModelNotif "/tmp/a.xml", VizEvent.killClosed]).effects =
      [Effect.logLine "Handler triggered for OpenModel with path: /tmp/a.xml",
       Effect.spawnProc "pkill" ["-f", "viz"],
       Effect.spawnProc "java" ["-jar", "alloy.jar", "viz", "/tmp/a.xml"]] :=
  ⟨rfl, rfl⟩

/-- C8 (amended): the prior-process kill is best-effort (a `pkill` name
pattern match, which does not confirm the old visualizer actually
exited), but the new visualizer spawn is not racing with it: it is
issued only inside the `pkill` process's close callback; and two
notifications each followed by their kill completion yield exactly two
kill attempts and two visualizer spawns, each kill preceding its
spawn. -/
theorem c8_amended_openmodel (jar p : String) :
    (vizRun jar [VizEvent.openModelNotif p]).effects.all (fun e => !isSpawnOf "java" e) = true
    ∧ (vizRun jar [VizEvent.openModelNotif p, VizEvent.killClosed]).effects =
        [Effect.logLine ("Handler triggered for OpenModel with path: " ++ p),
         Effect.spawnProc "pkill" ["-f", "viz"],
         Effect.spawnProc "java" ["-jar", jar, "viz", p]]
    ∧ (vizRun jar [VizEvent.openModelNotif p, VizEvent.killClosed,
                   VizEvent.openModelNotif p, VizEvent.killClosed]).effects =
        [Effect.logLine ("Handler triggered for OpenModel with path: " ++ p),
         Effect.spawnProc "pkill" ["-f", "viz"],
         Effect.spawnProc "java" ["-jar", jar, "viz", p],
         Effect.logLine ("Handler triggered for OpenModel with path: " ++ p),
         Effect.spawnProc "pkill" ["-f", "viz"],
         Effect.spawnProc "java" ["-jar", jar, "viz", p]] := by
  refine ⟨?_, rfl, rfl⟩
  rfl

/-- C9 (counterexample): the stderr line "Loading model" matches neither
noisy substring (`"thread:"`, `"link message!!!"`) yet is not forwarded
to the log, and neither is the same stdout line — the stderr handler
only logs lines containing `"ERROR"`/`"WARN"`, and the stdout handler
logs only to the disabled debug channel. -/
theorem c9_counterexample :
    stdoutHandler "Loading model" = []
    ∧ stderrHandler "Loading model" = []
    ∧ includes "Loading model" "thread:" = false
    ∧ includes "Loading model" "link message!!!" = false
    ∧ includes "Loading model" "ERROR" = false
    ∧ includes "Loading model" "WARN" = false := by
  refine ⟨rfl, rfl, ?_, ?_, ?_, ?_⟩ <;> decide

/-- C9 (amended): no worker stdout line is ever logged (the non-noisy
lines go to `debugLog`, and `ACTIVATION_DEBUG` is `false`), and a worker
stderr line is logged exactly when it contains `"ERROR"` or `"WARN"` —
all other stderr lines are suppressed. -/
theorem c9_amended_logging (m : String) :
    stdoutHandler m = []
    ∧ stderrHandler m =
        (if includes m "ERROR" || includes m "WARN" then
          [Effect.logLine ("Server error: " ++ m)]
         else []) := by
  constructor
  · simp [stdoutHandler, debugLog, ACTIVATION_DEBUG]
  · rfl

/-- C10: `alloy.executeCommand` invoked with a non-string first argument
produces no effect at all, and invoked with a string first argument it
produces exactly one `ExecuteAlloyCommand` notification carrying the
ordered argument list `[uri, index, line, char]`. -/
theorem c10_execute_command :
    (∀ s ind line char, executeCommandHandler (Arg.str s) ind line char =
        [Effect.notification "ExecuteAlloyCommand"
          [Arg.str s, Arg.num ind, Arg.num line, Arg.num char]])
    ∧ (∀ n ind line char, executeCommandHandler (Arg.num n) ind line char = [])
    ∧ (∀ ind line char, executeCommandHandler Arg.undef ind line char = []) := by
  refine ⟨?_, ?_, ?_⟩ <;> intros <;> rfl
